
import Mathlib

/-!
# Verification of the storybook→shadcn registry sync tool

A shallow embedding, in Lean 4, of the core transformation pipeline of the
`storybook-shadcn-sync` tool: the string utilities (`src/utils/config.ts`),
the dependency classifier and cycle detector (`DependencyAnalyzer`), the
complexity analyzer (`ComponentAnalyzer`), the story-file parser
(`StorybookParser`) and the registry assembler (`RegistryGenerator`), together
with theorems settling the claims of the specification about them.

JavaScript strings are modelled as Lean `String`s and, where character-level
work is needed, as their `List Char` of code points.  The regular-expression
fragments the source uses (`[a-z]`, `[A-Z]`, `[\s_]`, `\w`, `[A-Z][a-zA-Z0-9]*`)
are ASCII classes and are embedded as decidable character predicates on code
points.
-/

/-! ## Character classes (ASCII, as used by the regexes of the source) -/

/-- Models `[A-Z]` -/
def isUpperAZ (c : Char) : Bool := 65 ≤ c.toNat && c.toNat ≤ 90

/-- Models `[a-z]` -/
def isLowerAZ (c : Char) : Bool := 97 ≤ c.toNat && c.toNat ≤ 122

/-- Models `[a-zA-Z0-9]` -/
def isAlphaNumAZ (c : Char) : Bool :=
  (48 ≤ c.toNat && c.toNat ≤ 57) || (65 ≤ c.toNat && c.toNat ≤ 90) ||
    (97 ≤ c.toNat && c.toNat ≤ 122)

/-- Code points matched by the JavaScript regex class `\s`
(whitespace and line/paragraph separators). -/
def jsWsCodes : List Nat :=
  [9, 10, 11, 12, 13, 32, 160, 0x1680, 0x2000, 0x2001, 0x2002, 0x2003, 0x2004,
   0x2005, 0x2006, 0x2007, 0x2008, 0x2009, 0x200a, 0x2028, 0x2029, 0x202f,
   0x205f, 0x3000, 0xfeff]

/-- Models `\s` -/
def isJsWs (c : Char) : Bool := decide (c.toNat ∈ jsWsCodes)

/-- Models `[\s_]`, the class collapsed to a hyphen by `kebabCase`. -/
def isWsOrUnderscore (c : Char) : Bool := isJsWs c || c.toNat == 95

/-- ASCII lower-casing of one character, the action of the JavaScript
method on the `A`–`Z` range (the only range the
subsequent regexes of the source inspect). -/
def toLowerChar (c : Char) : Char :=
  if h : isUpperAZ c = true then
    Char.ofNatAux (c.toNat + 32)
      (by
        simp only [isUpperAZ, Bool.and_eq_true, decide_eq_true_eq] at h
        exact Or.inl (by omega))
  else c

/-! ## `kebabCase` (from `src/utils/config.ts`)

```ts
export function kebabCase(str: string): string {
  return str
    .replace(/([a-z])([A-Z])/g, "$1-$2")
    .replace(/[\s_]+/g, '-')
    .toLowerCase();
}
```

The first global replace is a left-to-right scan that, on matching a
lowercase/uppercase pair, emits `c1-c2` and resumes after the pair; the second
collapses each maximal run of `[\s_]` characters into a single hyphen. -/

/-- Models `replace(/([a-z])([A-Z])/g, "$1-$2")` -/
def kebabStep1 : List Char → List Char
  | [] => []
  | [c] => [c]
  | c1 :: c2 :: rest =>
    if isLowerAZ c1 && isUpperAZ c2 then c1 :: '-' :: c2 :: kebabStep1 rest
    else c1 :: kebabStep1 (c2 :: rest)

/-- Models `replace(/[\s_]+/g, '-')`: the flag records whether the previous character
belonged to the matched class, so that a run is collapsed to one hyphen. -/
def kebabStep2 (prevWs : Bool) : List Char → List Char
  | [] => []
  | c :: cs =>
    if isWsOrUnderscore c then
      if prevWs then kebabStep2 true cs else '-' :: kebabStep2 true cs
    else c :: kebabStep2 false cs

/-- Models `kebabCase` from `src/utils/config.ts`. -/
def kebabCase (str : String) : String :=
  ⟨(kebabStep2 false (kebabStep1 str.data)).map toLowerChar⟩

/-! ## String helpers over code points

The JavaScript methods `startsWith`, `includes` and `toLowerCase` modelled on the
`List Char` representation. -/

/-- Models `subject.startsWith(pat)` -/
def listStartsWith : List Char → List Char → Bool
  | _, [] => true
  | [], _ :: _ => false
  | c :: cs, p :: ps => c == p && listStartsWith cs ps

/-- Models `s.startsWith(pre)` -/
def strStartsWith (s pre : String) : Bool := listStartsWith s.data pre.data

/-- Models `s.includes(c)` for a single-character needle /
`String.prototype.indexOf(c) !== -1`. -/
def strContainsChar (s : String) (c : Char) : Bool := s.data.any (· == c)

/-- Models `hay.includes(needle)` (contiguous substring containment; an empty needle
is always contained). -/
def listHasSub : List Char → List Char → Bool
  | [], needle => needle.isEmpty
  | c :: t, needle => listStartsWith (c :: t) needle || listHasSub t needle

/-- Models `s.toLowerCase()` (ASCII range; see `toLowerChar`). -/
def strToLower (s : String) : String := ⟨s.data.map toLowerChar⟩

/-! ## Dependency classification (`DependencyAnalyzer.analyzeDependency`)

```ts
private async analyzeDependency(importPath, fromFile) {
  if (importPath.startsWith("@storybook/")) return null;
  if (importPath.startsWith('.')) {
    const resolvedPath = this.resolveRelativePath(importPath, fromFile);
    return { name: importPath, type: "internal", path: resolvedPath };
  } else if (importPath.startsWith('@') || !importPath.includes('/')) {
    const packageInfo = await this.getPackageInfo(importPath);
    return { name: importPath, type: "npm",
             ...(packageInfo?.version && { version: packageInfo.version }) };
  } else {
    return { name: importPath, type: "registry" };
  }
}
```

Filesystem-dependent pieces (`resolveRelativePath` walking extension
candidates, `getPackageInfo` walking ancestor `node_modules`) are passed in as
oracles; the classification itself is pure. -/

/-- Models `DependencyInfo["type"]`: `"npm" | "internal" | "registry"`. -/
inductive DepType where
  | internal
  | npm
  | registry
deriving DecidableEq

/-- Models `DependencyInfo` from `src/types/index.ts`. -/
structure DependencyInfo where
  name : String
  type : DepType
  version : Option String
  path : Option String
deriving DecidableEq

/-- Models `DependencyAnalyzer.analyzeDependency`.  `resolvePath` stands for
`resolveRelativePath` and `pkgVersion` for the `version` field of
the result of `getPackageInfo`; the spread `...(packageInfo?.version && {version})`
includes the field only when the version string is truthy (non-empty). -/
def analyzeDependency (resolvePath : String → String → String)
    (pkgVersion : String → Option String) (importPath fromFile : String) :
    Option DependencyInfo :=
  if strStartsWith importPath "@storybook/" then none
  else if strStartsWith importPath "." then
    some { name := importPath, type := DepType.internal, version := none,
           path := some (resolvePath importPath fromFile) }
  else if strStartsWith importPath "@" || !(strContainsChar importPath '/') then
    some { name := importPath, type := DepType.npm,
           version :=
             match pkgVersion importPath with
             | some v => if v.data.isEmpty then none else some v
             | none => none,
           path := none }
  else
    some { name := importPath, type := DepType.registry, version := none,
           path := none }

/-- The classification the spec describes, as a total function of the
lexical form of the specifier (for specifiers that are not dropped). -/
def lexicalDepKind (importPath : String) : DepType :=
  if strStartsWith importPath "." then DepType.internal
  else if strStartsWith importPath "@" || !(strContainsChar importPath '/') then
    DepType.npm
  else DepType.registry

/-! ## Complexity score (`ComponentAnalyzer.analyzeComplexity`)

```ts
const score = Math.min(100,
  (fileCount * 10) +
  (Math.min(lineCount, 1000) / 10) +
  (dependencyCount * 5) +
  (propCount * 2) +
  (storyCount * 3));
return { ..., score: Math.round(score) };
```

The five measures are non-negative counts; the arithmetic is embedded over `ℚ`
and `Math.round` as `⌊q + 1/2⌋` (its behaviour on non-negative reals). -/

/-- Models `Math.round` on non-negative arguments. -/
def jsRound (q : ℚ) : ℤ := ⌊q + 1/2⌋

/-- The raw weighted sum inside `Math.min(100, …)`. -/
def complexityRaw (fileCount lineCount dependencyCount propCount storyCount : ℕ) : ℚ :=
  (fileCount : ℚ) * 10 + min (lineCount : ℚ) 1000 / 10 + (dependencyCount : ℚ) * 5 +
    (propCount : ℚ) * 2 + (storyCount : ℚ) * 3

/-- The `score` field computed by `analyzeComplexity` from the five measures. -/
def analyzeComplexityScore (fileCount lineCount dependencyCount propCount storyCount : ℕ) : ℤ :=
  jsRound (min 100 (complexityRaw fileCount lineCount dependencyCount propCount storyCount))

/-- Models `clamp(x, lo, hi)`, the bounding as the spec describes it. -/
def clampQ (x lo hi : ℚ) : ℚ := max lo (min hi x)

/-! ## Dependency graph and cycle detection
(`DependencyAnalyzer.buildDependencyGraph` / `findCircularDependencies`)

```ts
findCircularDependencies(graph) {
  const visited = new Set(); const recursionStack = new Set(); const cycles = [];
  const dfs = (file, path) => {
    if (recursionStack.has(file)) {
      const cycleStart = path.indexOf(file);
      if (cycleStart !== -1) cycles.push(path.slice(cycleStart));
      return;
    }
    if (visited.has(file)) return;
    visited.add(file); recursionStack.add(file);
    const dependencies = graph.get(file) || [];
    for (const dep of dependencies)
      if (dep.type === "internal" && dep.path) dfs(dep.path, [...path, file]);
    recursionStack.delete(file);
  };
  for (const file of graph.keys()) if (!visited.has(file)) dfs(file, []);
  return cycles;
}
```

The `Map` is modelled as an association list in insertion order (its keys are
distinct by construction).  The recursive `dfs` is embedded with an explicit
fuel argument; fuel is consumed once per call, and the top-level entry point
supplies more fuel than the graph has nodes and edges, which the actual
recursion depth never exceeds.  Running out of fuel returns the state
unchanged, which adds no cycles, so the theorems below are not weakened by
the fuel. -/

def DepGraph : Type := List (String × List DependencyInfo)

/-- Models `graph.get(file) || []` -/
def graphDeps (g : DepGraph) (file : String) : List DependencyInfo :=
  match List.find? (fun p => p.1 == file) g with
  | some p => p.2
  | none => []

/-- The mutable state of the walk: the `visited` set, the explicit recursion
stack and the accumulated cycle list (all in insertion order). -/
structure DfsState where
  visited : List String
  stack : List String
  cycles : List (List String)

/-- The inner `dfs(file, path)` closure.  `dep.type === "internal" && dep.path`
requires the kind to be internal and the resolved path to be a truthy
(non-empty) string. -/
def dfsVisit (g : DepGraph) : Nat → String → List String → DfsState → DfsState
  | 0, _, _, st => st
  | Nat.succ fuel, file, path, st =>
    if file ∈ st.stack then
      if file ∈ path then
        { st with cycles := st.cycles ++ [path.drop (path.indexOf file)] }
      else st
    else if file ∈ st.visited then st
    else
      let st1 : DfsState :=
        { st with visited := st.visited ++ [file], stack := st.stack ++ [file] }
      let st2 := (graphDeps g file).foldl
        (fun s dep =>
          match dep.path with
          | some p =>
            if dep.type = DepType.internal ∧ p ≠ "" then
              dfsVisit g fuel p (path ++ [file]) s
            else s
          | none => s) st1
      { st2 with stack := st2.stack.erase file }

/-- Fuel bound supplied at the entry point: one unit per key and per edge,
plus one. -/
def totalFuel (g : DepGraph) : Nat :=
  1 + g.length + (g.map (fun p => p.2.length)).sum

/-- Models `DependencyAnalyzer.findCircularDependencies`. -/
def findCircularDependencies (g : DepGraph) : List (List String) :=
  ((g.map Prod.fst).foldl
    (fun st file => if file ∈ st.visited then st else dfsVisit g (totalFuel g) file [] st)
    { visited := [], stack := [], cycles := [] }).cycles

/-- The internal-only edge relation of a dependency graph: `a` has a recorded
dependency of internal kind whose resolved path is the (truthy) `b`. -/
def EdgeR (g : DepGraph) (a b : String) : Prop :=
  ∃ d ∈ graphDeps g a, d.type = DepType.internal ∧ d.path = some b ∧ b ≠ ""

/-- The two-file graph in which the only internal dependency of each file resolves
to the other file (A imports B, B imports A). -/
def mutualGraph : DepGraph :=
  [("a.ts", [{ name := "./b", type := DepType.internal, version := none,
               path := some "b.ts" }]),
   ("b.ts", [{ name := "./a", type := DepType.internal, version := none,
               path := some "a.ts" }])]

/-- A single-file graph whose only dependency is an npm package: its
internal-only subgraph has no edge at all, hence is acyclic. -/
def npmOnlyGraph : DepGraph :=
  [("a.ts", [{ name := "lodash", type := DepType.npm, version := none,
               path := none }])]

/-! ## Extracted values (`StorybookParser.extractValue`)

The value extractor maps literal expressions to a generic tagged value:
strings, numbers, booleans, `null`, arrays, object literals; identifier
references become their identifier text and every other expression shape
becomes its verbatim source text (both are strings in the JavaScript model).
Note: numeric literals are embedded as integers — no claim inspects numeric
payloads. -/

inductive JsValue where
  | str (s : String)
  | num (n : Int)
  | bool (b : Bool)
  | null
  | arr (elems : List JsValue)
  | obj (fields : List (String × JsValue))

/-- JavaScript truthiness of an extracted value (the empty string, `0`, `false`, `null`
are falsy; arrays and objects are truthy). -/
def jsTruthy : JsValue → Bool
  | .str s => !s.data.isEmpty
  | .num n => n != 0
  | .bool b => b
  | .null => false
  | .arr _ => true
  | .obj _ => true

/-- Property assignment on a JavaScript object: an existing key is overwritten
in place, a new key is appended. -/
def jsObjSet (fields : List (String × JsValue)) (k : String) (v : JsValue) :
    List (String × JsValue) :=
  if fields.any (fun p => p.1 == k) then
    fields.map (fun p => if p.1 == k then (k, v) else p)
  else fields ++ [(k, v)]

/-- First value bound to a key on a JavaScript object. -/
def jsObjGet (fields : List (String × JsValue)) (k : String) : Option JsValue :=
  match List.find? (fun p => p.1 == k) fields with
  | some p => some p.2
  | none => none

mutual
/-- JavaScript `String(v)` for the value shapes the extractor produces:
numbers and booleans print canonically, `null` prints `"null"`, arrays join
the string forms of their elements with `,` (with `null` elements printing empty),
plain objects print `"[object Object]"`. -/
def jsToString : JsValue → String
  | .str s => s
  | .num n => toString n
  | .bool true => "true"
  | .bool false => "false"
  | .null => "null"
  | .arr xs => ⟨jsArrChars xs⟩
  | .obj _ => "[object Object]"

def jsArrChars : List JsValue → List Char
  | [] => []
  | v :: rest =>
    let head : List Char :=
      match v with
      | .null => []
      | v' => (jsToString v').data
    match rest with
    | [] => head
    | r :: rs => head ++ ',' :: jsArrChars (r :: rs)
end

/-! ### Expressions

The syntax-tree expression shapes `extractValue` dispatches on.  `other`
carries `expression.getText()`, the verbatim source text. -/

/-- An object-literal property name: identifier, string literal, or any other
shape (computed/numeric names, which `extractValue` skips). -/
inductive PropKey where
  | ident (s : String)
  | strLit (s : String)
  | computed

mutual
inductive Expr where
  | strLit (s : String)
  | numLit (n : Int)
  | trueLit
  | falseLit
  | nullLit
  | arrayLit (elems : List Expr)
  | objectLit (props : List ObjProp)
  | ident (name : String)
  | other (text : String)

/-- An entry of an object literal: a property assignment, or any other member
shape (shorthand, spread, accessors — skipped by the extractor). -/
inductive ObjProp where
  | assign (key : PropKey) (value : Expr)
  | otherProp
end

mutual
/-- Models `StorybookParser.extractValue`. -/
def extractValue : Expr → JsValue
  | .strLit s => .str s
  | .numLit n => .num n
  | .trueLit => .bool true
  | .falseLit => .bool false
  | .nullLit => .null
  | .arrayLit xs => .arr (extractValueList xs)
  | .objectLit props => .obj (extractObjProps [] props)
  | .ident n => .str n
  | .other text => .str text

def extractValueList : List Expr → List JsValue
  | [] => []
  | e :: es => extractValue e :: extractValueList es

/-- The object-literal branch of `extractValue`: property assignments with
identifier or string-literal names contribute `obj[key] = extractValue(init)`;
other members are skipped. -/
def extractObjProps (acc : List (String × JsValue)) :
    List ObjProp → List (String × JsValue)
  | [] => acc
  | .assign (.ident k) v :: rest =>
      extractObjProps (jsObjSet acc k (extractValue v)) rest
  | .assign (.strLit k) v :: rest =>
      extractObjProps (jsObjSet acc k (extractValue v)) rest
  | .assign .computed _ :: rest => extractObjProps acc rest
  | .otherProp :: rest => extractObjProps acc rest
end

/-! ## Meta and story records (`StorybookMeta` / `StorybookStory`)

The source casts each extracted value to the TypeScript type of the field
(`value as string`, `value as Record<string, any>`, …) without a runtime
check, so every field stores the extracted value itself. -/

structure StorybookMeta where
  title : Option JsValue
  component : Option JsValue
  decorators : Option JsValue
  parameters : Option JsValue
  args : Option JsValue
  argTypes : Option JsValue
  tags : Option JsValue

def emptyMeta : StorybookMeta :=
  { title := none, component := none, decorators := none, parameters := none,
    args := none, argTypes := none, tags := none }

structure StorybookStory where
  name : Option JsValue
  args : Option JsValue
  parameters : Option JsValue
  decorators : Option JsValue
  render : Option JsValue
  play : Option JsValue
  tags : Option JsValue

def emptyStory : StorybookStory :=
  { name := none, args := none, parameters := none, decorators := none,
    render := none, play := none, tags := none }

/-- One `case` of the `switch (key)` in `extractMeta`. -/
def setMetaField (m : StorybookMeta) (key : String) (v : JsValue) : StorybookMeta :=
  if key = "title" then { m with title := some v }
  else if key = "component" then { m with component := some v }
  else if key = "decorators" then { m with decorators := some v }
  else if key = "parameters" then { m with parameters := some v }
  else if key = "args" then { m with args := some v }
  else if key = "argTypes" then { m with argTypes := some v }
  else if key = "tags" then { m with tags := some v }
  else m

/-- Models `StorybookParser.extractMeta`: reads the property assignments with
identifier names out of an object literal; any other expression shape yields
the empty meta record. -/
def extractMeta (e : Expr) : StorybookMeta :=
  match e with
  | .objectLit props =>
      props.foldl
        (fun m p =>
          match p with
          | .assign (.ident key) v => setMetaField m key (extractValue v)
          | _ => m)
        emptyMeta
  | _ => emptyMeta

/-- One `case` of the `switch (key)` in `extractStory`. -/
def setStoryField (s : StorybookStory) (key : String) (v : JsValue) : StorybookStory :=
  if key = "name" then { s with name := some v }
  else if key = "args" then { s with args := some v }
  else if key = "parameters" then { s with parameters := some v }
  else if key = "decorators" then { s with decorators := some v }
  else if key = "render" then { s with render := some v }
  else if key = "play" then { s with play := some v }
  else if key = "tags" then { s with tags := some v }
  else s

/-- Models `StorybookParser.extractStory`: like `extractMeta`, but a non-object
expression yields `null` (no story). -/
def extractStory (e : Expr) : Option StorybookStory :=
  match e with
  | .objectLit props =>
      some (props.foldl
        (fun s p =>
          match p with
          | .assign (.ident key) v => setStoryField s key (extractValue v)
          | _ => s)
        emptyStory)
  | _ => none

/-! ## Component identity (`extractComponentName` / `extractComponentPath`)

```ts
private extractComponentName(component: any): string {
  if (typeof component === "string") return component;
  const componentStr = String(component);
  const match = componentStr.match(/([A-Z][a-zA-Z0-9]*)/);
  return match ? match[1]! : "UnknownComponent";
}
```
-/

/-- First match of the regex `[A-Z][a-zA-Z0-9]*`: scan for the first uppercase
letter and take the maximal alphanumeric run from it. -/
def firstUpperRun : List Char → Option (List Char)
  | [] => none
  | c :: cs =>
    if isUpperAZ c then some (c :: cs.takeWhile isAlphaNumAZ)
    else firstUpperRun cs

/-- Models `StorybookParser.extractComponentName`. -/
def extractComponentName (component : JsValue) : String :=
  match component with
  | .str s => s
  | v =>
    match firstUpperRun (jsToString v).data with
    | some t => ⟨t⟩
    | none => "UnknownComponent"

/-- Models `s.includes(sub)` -/
def strHasSub (s sub : String) : Bool := listHasSub s.data sub.data

/-- Models `StorybookParser.extractComponentPath`: first relative import whose
lower-cased text contains the lower-cased component name or the literal
`"component"`, else the first relative import, else the empty string. -/
def extractComponentPath (dependencies : List String) (componentName : String) :
    String :=
  let relativeDeps := dependencies.filter (fun dep => strStartsWith dep ".")
  match relativeDeps.find? (fun dep =>
      strHasSub (strToLower dep) (strToLower componentName) ||
        strHasSub dep "component") with
  | some dep => dep
  | none =>
    match relativeDeps with
    | dep :: _ => dep
    | [] => ""

/-- Models `StorybookParser.filterDependencies`: drops `@storybook/`-prefixed
specifiers and the exact specifiers `react` and `react-dom`. -/
def filterDependencies (dependencies : List String) : List String :=
  dependencies.filter (fun dep =>
    !(strStartsWith dep "@storybook/") && !(dep == "react") && !(dep == "react-dom"))

/-! ## Source-file model and the parse walk (`StorybookParser.parseSourceFile`)

The walker `visit` is called on every node of the syntax tree in pre-order
(`visit(node); ts.forEachChild(node, visit)`); each of its branches inspects
only the node at hand, so a source file is modelled as the pre-order sequence
of its nodes.  Node kinds the walker never reacts to are collapsed into
`otherNode`; dynamic `import()` calls are distinct nodes because the *other*
walker (`DependencyAnalyzer.extractImports`) collects them, while this one
does not. -/

/-- One declaration of a variable statement: the bound name (when the binding
is a plain identifier) and the optional initializer. -/
structure VarDecl where
  name : Option String
  init : Option Expr

inductive TsNode where
  /-- Models `ImportDeclaration`; the payload is the text of the module specifier when it
  is a string literal. -/
  | importDecl (specText : Option String)
  /-- Models `ExportAssignment` (`export default …` / `export = …`). -/
  | exportAssignment (isExportEquals : Bool) (expr : Expr)
  /-- Models `VariableStatement` with its export modifier and declaration list. -/
  | variableStatement (exported : Bool) (decls : List VarDecl)
  /-- Models `ExportDeclaration` with a named-exports clause: the exported names. -/
  | exportDecl (names : List String)
  /-- A `CallExpression` whose callee is the `import` keyword; the payload is
  the text of the first argument when it is a string literal. -/
  | dynamicImport (argText : Option String)
  /-- Every other node kind. -/
  | otherNode

/-- A source file: its nodes in pre-order traversal order. -/
def SourceFileModel : Type := List TsNode

/-- Models `name === "meta" || name.toLowerCase().includes("meta")` -/
def isMetaName (name : String) : Bool :=
  name == "meta" || strHasSub (strToLower name) "meta"

/-- Models `StorybookParser.findStoryDeclaration`: scan the whole file for variable
declarations binding `storyName`; each match with an initializer overwrites
the result with `extractStory(initializer)`. -/
def findStoryDeclaration (sf : SourceFileModel) (storyName : String) :
    Option StorybookStory :=
  sf.foldl
    (fun acc node =>
      match node with
      | .variableStatement _ decls =>
          decls.foldl
            (fun a d =>
              match d.name with
              | some nm =>
                  if nm = storyName then
                    match d.init with
                    | some i => extractStory i
                    | none => a
                  else a
              | none => a)
            acc
      | _ => acc)
    none

/-- Insertion-ordered update of the `stories` record
(`stories[storyName] = story`). -/
def storiesSet (stories : List (String × StorybookStory)) (k : String)
    (v : StorybookStory) : List (String × StorybookStory) :=
  if stories.any (fun p => p.1 == k) then
    stories.map (fun p => if p.1 == k then (k, v) else p)
  else stories ++ [(k, v)]

/-- The mutable state threaded through `visit`. -/
structure ParseState where
  meta : Option StorybookMeta
  stories : List (String × StorybookStory)
  dependencies : List String

/-- One call of the `visit` callback.  Its five `if` branches run in order on
the same node; `sf` is the whole file, consulted by the named-re-export
branch. -/
def visitNode (sf : SourceFileModel) (st : ParseState) (node : TsNode) : ParseState :=
  -- imports for dependency analysis
  let st :=
    match node with
    | .importDecl (some text) => { st with dependencies := st.dependencies ++ [text] }
    | _ => st
  -- default export (meta)
  let st :=
    match node with
    | .exportAssignment false e => { st with meta := some (extractMeta e) }
    | _ => st
  -- variable declarations that might be default exports (first declaration)
  let st :=
    match node with
    | .variableStatement _ ({ name := some nm, init := initOpt } :: _) =>
        if isMetaName nm then
          match initOpt with
          | some i => { st with meta := some (extractMeta i) }
          | none => st
        else st
    | _ => st
  -- named exports (stories) resolved against top-level declarations
  let st :=
    match node with
    | .exportDecl names =>
        names.foldl
          (fun s storyName =>
            match findStoryDeclaration sf storyName with
            | some story => { s with stories := storiesSet s.stories storyName story }
            | none => s)
          st
    | _ => st
  -- exported variable declarations as stories
  match node with
  | .variableStatement true decls =>
      decls.foldl
        (fun s d =>
          match d.name, d.init with
          | some nm, some i =>
              match extractStory i with
              | some story => { s with stories := storiesSet s.stories nm story }
              | none => s
          | _, _ => s)
        st
  | _ => st

/-- Models `SyncError` from `src/utils/index.ts`. -/
structure SyncError where
  message : String
  code : String
  file : Option String
  line : Option Nat

/-- Models `createError` from `src/utils/index.ts`. -/
def createError (message code : String) (file : Option String) : SyncError :=
  { message := message, code := code, file := file, line := none }

/-- Models `ParsedStoryFile` from `src/types/index.ts`. -/
structure ParsedStoryFile where
  filePath : String
  meta : StorybookMeta
  stories : List (String × StorybookStory)
  dependencies : List String
  componentName : String
  componentPath : String

/-- Models `StorybookParser.parseSourceFile` (together with the component-information
step of its caller): walk the nodes, fail with `NO_META_EXPORT` when no meta
was found, else assemble the record.  `"component" in meta` holds when the
`component` key was assigned, and the truthiness test skips falsy component
references. -/
def assembleParsed (fileName : String) (st : ParseState) :
    Except SyncError ParsedStoryFile :=
  match st.meta with
  | none =>
      .error (createError "No default export (meta) found in story file"
        "NO_META_EXPORT" (some fileName))
  | some m =>
      let namePath : String × String :=
        match m.component with
        | some comp =>
            if jsTruthy comp then
              (extractComponentName comp,
               extractComponentPath st.dependencies (extractComponentName comp))
            else ("", "")
        | none => ("", "")
      .ok { filePath := fileName, meta := m, stories := st.stories,
            dependencies := filterDependencies st.dependencies,
            componentName := namePath.1, componentPath := namePath.2 }

def parseSourceFile (fileName : String) (sf : SourceFileModel) :
    Except SyncError ParsedStoryFile :=
  assembleParsed fileName
    (sf.foldl (visitNode sf) { meta := none, stories := [], dependencies := [] })

/-- Models `StorybookParser.parseStoryFile`: the per-file entry point wraps every
failure as a `PARSE_ERROR` (`Failed to parse story file: …`). -/
def parseStoryFile (fileName : String) (sf : SourceFileModel) :
    Except SyncError ParsedStoryFile :=
  match parseSourceFile fileName sf with
  | .ok r => .ok r
  | .error e =>
      .error (createError ("Failed to parse story file: " ++ e.message)
        "PARSE_ERROR" (some fileName))

/-- Models `StorybookParser.parseStoryFiles`: per-file parsing with an arbitrary
per-item parser (the file read plus `parseStoryFile`); successes and errors
accumulate separately, and only an all-failed batch raises. -/
def parseStoryFiles {α β : Type} (parse : α → Except SyncError β)
    (filePaths : List α) : Except SyncError (List β) :=
  let acc := filePaths.foldl
    (fun (acc : List β × List SyncError) f =>
      match parse f with
      | .ok r => (acc.1 ++ [r], acc.2)
      | .error e => (acc.1, acc.2 ++ [e]))
    ([], [])
  if acc.2.length > 0 ∧ acc.1.length = 0 then
    .error (createError
      ("Failed to parse any story files. Errors: " ++
        String.intercalate ", " (acc.2.map (fun e => e.message)))
      "PARSE_ALL_FAILED" none)
  else .ok acc.1

/-- The per-item successes of a batch, in order. -/
def successList {α β : Type} (parse : α → Except SyncError β) (files : List α) :
    List β :=
  files.filterMap (fun f => (parse f).toOption)

/-- The per-item failures of a batch, in order. -/
def failList {α β : Type} (parse : α → Except SyncError β) (files : List α) :
    List SyncError :=
  files.filterMap (fun f =>
    match parse f with
    | .error e => some e
    | .ok _ => none)

/-- Scenario file missing a default-export meta: only an import. -/
def badStoryFile : SourceFileModel := [TsNode.importDecl (some "./button")]

/-- Scenario file with a valid default-export meta and one named story. -/
def goodStoryFile : SourceFileModel :=
  [TsNode.exportAssignment false
     (Expr.objectLit
       [ObjProp.assign (PropKey.ident "title") (Expr.strLit "Components/Button"),
        ObjProp.assign (PropKey.ident "component") (Expr.ident "Button")]),
   TsNode.variableStatement true
     [{ name := some "Primary",
        init := some (Expr.objectLit
          [ObjProp.assign (PropKey.ident "args")
            (Expr.objectLit
              [ObjProp.assign (PropKey.ident "variant") (Expr.strLit "primary")])]) }]]

/-- The two-file batch of scenario 3 in the spec. -/
def scenarioFiles : List (String × SourceFileModel) :=
  [("bad.stories.ts", badStoryFile), ("good.stories.ts", goodStoryFile)]

/-- Per-item parser of the scenario batch. -/
def scenarioParse (p : String × SourceFileModel) : Except SyncError ParsedStoryFile :=
  parseStoryFile p.1 p.2

/-! ## C6: component-name extraction versus the description in the spec -/

/-- The description in the spec of the name extraction, written independently of
the scanner: the token starts at the first index holding an uppercase letter
and extends through the maximal alphanumeric run. -/
def listFirstUpperSpec (l : List Char) : Option (List Char) :=
  match l.findIdx? isUpperAZ with
  | some i =>
    match l.drop i with
    | c :: rest => some (c :: rest.takeWhile isAlphaNumAZ)
    | [] => none
  | none => none

/-- The token the spec calls the first upper-camel-case token found in the
textual form of the reference. -/
def firstUpperCamelSpec (s : String) : Option String :=
  (listFirstUpperSpec s.data).map (fun t => (⟨t⟩ : String))

/-! ## C7: the surviving dependency list of the Tree Parser -/

/-- The module specifiers of static import declarations, in traversal order. -/
def staticImportSpecs (sf : SourceFileModel) : List String :=
  sf.filterMap (fun n =>
    match n with
    | TsNode.importDecl s => s
    | _ => none)

/-- The string-literal arguments of dynamic `import()` calls, in traversal
order.  (Collected by `DependencyAnalyzer.extractImports`, not by the Tree
Parser.) -/
def dynamicImportArgs (sf : SourceFileModel) : List String :=
  sf.filterMap (fun n =>
    match n with
    | TsNode.dynamicImport a => a
    | _ => none)

/-- The dependency list the claim describes, following the words of the spec:
static import specifiers plus dynamic `import()` string-literal arguments,
minus the `@storybook/` framework namespace. -/
def claimedSurvivingDeps (sf : SourceFileModel) : List String :=
  (staticImportSpecs sf ++ dynamicImportArgs sf).filter
    (fun d => !(strStartsWith d "@storybook/"))

/-- C7 counterexample.  A file with the static import `react-dom`, with the
dynamic `import("lodash")` and with a valid meta: the claim predicts the surviving
list `["react-dom", "lodash"]`, but the parser returns the empty list — it
never collects the dynamic argument and it also drops `react-dom`. -/
def c7File : SourceFileModel :=
  [TsNode.importDecl (some "react-dom"),
   TsNode.dynamicImport (some "lodash"),
   TsNode.exportAssignment false
     (Expr.objectLit
       [ObjProp.assign (PropKey.ident "title") (Expr.strLit "X")])]

/-- The record `parseSourceFile` produces on `c7File`. -/
def c7Parsed : ParsedStoryFile :=
  { filePath := "x.stories.ts",
    meta := { title := some (JsValue.str "X"), component := none,
              decorators := none, parameters := none, args := none,
              argTypes := none, tags := none },
    stories := [],
    dependencies := [],
    componentName := "",
    componentPath := "" }

/-! ## Registry item types and the type-resolution rules
(`RegistryGenerator.determineItemType` / `matchesPattern` / `meetsCondition`)

`matchesPattern` converts a glob to a regex by three *chained* global
replaces — `**` → `.*`, then `*` → `[^/]*`, then `?` → `.` — and runs an
*unanchored* `RegExp.test`.  The second replace also rewrites the `*` of the
`.*` the first replace just inserted, so `**` in fact becomes `.[^/]*` (one
arbitrary character followed by a run of non-separators), not an unbounded
`.*`; and a lone `*` becomes `[^/]*`.  After the three passes the produced
regex consists only of `[^/]*` groups, `.` atoms (from `?`, and from a
glob-literal `.`, which passes through as the regex any-character) and literal
characters, which the model tokenizes and implements directly.  Glob patterns
using further regex metacharacters (`+`, `(`, `[`, …) are outside the model —
such a pattern changes meaning or even makes `new RegExp` throw in the
source. -/

inductive RegistryItemType where
  | component
  | ui
  | lib
  | hook
  | block
  | page
  | file
  | style
  | theme
deriving DecidableEq

/-- The wire form of a registry item type. -/
def registryTypeStr : RegistryItemType → String
  | .component => "registry:component"
  | .ui => "registry:ui"
  | .lib => "registry:lib"
  | .hook => "registry:hook"
  | .block => "registry:block"
  | .page => "registry:page"
  | .file => "registry:file"
  | .style => "registry:style"
  | .theme => "registry:theme"

inductive GlobTok where
  | lit (c : Char)
  | noSlashStar
  | anyChar

/-- Tokenize a glob under the chained replaces: `**` → `.[^/]*` (the second
replace rewrites the inserted `*`), a lone `*` → `[^/]*`, `?` → `.`, and a
glob-literal `.` passes through as the regex `.`. -/
def globTokens : List Char → List GlobTok
  | [] => []
  | '*' :: '*' :: rest => GlobTok.anyChar :: GlobTok.noSlashStar :: globTokens rest
  | '*' :: rest => GlobTok.noSlashStar :: globTokens rest
  | '?' :: rest => GlobTok.anyChar :: globTokens rest
  | '.' :: rest => GlobTok.anyChar :: globTokens rest
  | c :: rest => GlobTok.lit c :: globTokens rest

/-- The regex `.` (and `.*`) does not match line terminators. -/
def isDotMatch (c : Char) : Bool :=
  !(c.toNat == 10 || c.toNat == 13 || c.toNat == 0x2028 || c.toNat == 0x2029)

/-- Match the token sequence against a prefix of `s` (fuelled backtracking
matcher; each step consumes either a token or a character, so
`tokens.length + s.length + 1` fuel always suffices). -/
def matchTokens : Nat → List GlobTok → List Char → Bool
  | 0, _, _ => false
  | _ + 1, [], _ => true
  | _ + 1, GlobTok.lit _ :: _, [] => false
  | fuel + 1, GlobTok.lit c :: ts, x :: xs => x == c && matchTokens fuel ts xs
  | _ + 1, GlobTok.anyChar :: _, [] => false
  | fuel + 1, GlobTok.anyChar :: ts, x :: xs => isDotMatch x && matchTokens fuel ts xs
  | fuel + 1, GlobTok.noSlashStar :: ts, s =>
      matchTokens fuel ts s ||
        (match s with
         | [] => false
         | x :: xs => x != '/' && matchTokens fuel (GlobTok.noSlashStar :: ts) xs)

/-- Unanchored search, as `RegExp.prototype.test`: try a match at every start
position. -/
def searchTokens (ts : List GlobTok) : List Char → Bool
  | [] => matchTokens (ts.length + 1) ts []
  | c :: rest =>
      matchTokens (ts.length + (c :: rest).length + 1) ts (c :: rest) ||
        searchTokens ts rest

/-- Models `RegistryGenerator.matchesPattern`. -/
def matchesPattern (filePath pattern : String) : Bool :=
  searchTokens (globTokens pattern.data) filePath.data

/-- Models `condition?: "fileCount" | "complexity" | "dependencies"` -/
inductive CondKind where
  | fileCount
  | complexity
  | dependencies
deriving DecidableEq

/-- Models `ComponentTypeRule` from `src/types/index.ts`.  Thresholds are numbers;
the claims only exercise integral ones. -/
structure ComponentTypeRule where
  pattern : String
  type : RegistryItemType
  condition : Option CondKind
  threshold : Option Int

/-- The slice of `ComponentAnalysis` consulted by the generator: its type,
its file count and its complexity score. -/
structure AnalysisLite where
  type : RegistryItemType
  filesLen : Nat
  score : Int

/-- Models `RegistryGenerator.meetsCondition`.  `analysis?.files.length || 1` turns a
missing analysis — or a zero file count — into 1, and `analysis?.complexity.score
|| 0` turns a missing analysis into 0. -/
def meetsCondition (storyDepsLen : Nat) (analysis : Option AnalysisLite)
    (condition : CondKind) (threshold : Int) : Bool :=
  match condition with
  | .fileCount =>
      (match analysis with
       | some a => if a.filesLen = 0 then (1 : Int) else (a.filesLen : Int)
       | none => 1) ≥ threshold
  | .complexity =>
      (match analysis with
       | some a => a.score
       | none => 0) ≥ threshold
  | .dependencies => (storyDepsLen : Int) ≥ threshold

/-- The rule loop of `determineItemType`: the first rule whose pattern matches
fires, except that a rule carrying a truthy condition *and* a truthy (non-zero)
threshold fires only when `meetsCondition` holds — otherwise the loop keeps
scanning.  An exhausted loop yields the default `registry:component`. -/
def findRuleType (filePath : String) (storyDepsLen : Nat)
    (analysis : Option AnalysisLite) : List ComponentTypeRule → RegistryItemType
  | [] => RegistryItemType.component
  | rule :: rest =>
    if matchesPattern filePath rule.pattern then
      match rule.condition, rule.threshold with
      | some c, some t =>
          if t ≠ 0 then
            if meetsCondition storyDepsLen analysis c t then rule.type
            else findRuleType filePath storyDepsLen analysis rest
          else rule.type
      | _, _ => rule.type
    else findRuleType filePath storyDepsLen analysis rest

/-- Models `RegistryGenerator.determineItemType`: an analyzer-derived classification
wins outright (its type, an enum string, is always truthy); otherwise the
configured rules are scanned in order. -/
def determineItemType (sf : ParsedStoryFile) (analysis : Option AnalysisLite)
    (componentTypeRules : List ComponentTypeRule) : RegistryItemType :=
  match analysis with
  | some a => a.type
  | none => findRuleType sf.filePath sf.dependencies.length none componentTypeRules

/-- A story file on a `ui` path, for the C8 witness. -/
def uiStoryFile : ParsedStoryFile :=
  { filePath := "/src/ui/button.stories.tsx",
    meta := emptyMeta, stories := [], dependencies := [],
    componentName := "Button", componentPath := "" }

/-- Two condition-free rules that both match `/src/ui/button.stories.tsx`;
the later one is more specific. -/
def uiRule : ComponentTypeRule :=
  { pattern := "**/ui/**", type := RegistryItemType.ui,
    condition := none, threshold := none }

def buttonRule : ComponentTypeRule :=
  { pattern := "**/ui/button*", type := RegistryItemType.block,
    condition := none, threshold := none }

/-! ## `startCase` (from `src/utils/config.ts`)

```ts
export function startCase(str: string): string {
  return str
    .replace(/([a-z])([A-Z])/g, "$1 $2")
    .replace(/[-_\s]+/g, ' ')
    .replace(/\b\w/g, char => char.toUpperCase())
    .trim();
}
```
-/

/-- Models `\w`, i.e. `[A-Za-z0-9_]` -/
def isWordChar (c : Char) : Bool := isAlphaNumAZ c || c.toNat == 95

/-- Models `String.prototype.split` on a one-character separator. -/
def splitOnChar (sep : Char) : List Char → List (List Char)
  | [] => [[]]
  | c :: cs =>
    let r := splitOnChar sep cs
    if c == sep then [] :: r
    else
      match r with
      | [] => [[c]]
      | h :: t => (c :: h) :: t

/-- ASCII upper-casing of one character (`char.toUpperCase()` on a `\w`
match). -/
def toUpperChar (c : Char) : Char :=
  if h : isLowerAZ c = true then
    Char.ofNatAux (c.toNat - 32)
      (by
        simp only [isLowerAZ, Bool.and_eq_true, decide_eq_true_eq] at h
        exact Or.inl (by omega))
  else c

/-- Models `replace(/([a-z])([A-Z])/g, "$1 $2")` -/
def startStep1 : List Char → List Char
  | [] => []
  | [c] => [c]
  | c1 :: c2 :: rest =>
    if isLowerAZ c1 && isUpperAZ c2 then c1 :: ' ' :: c2 :: startStep1 rest
    else c1 :: startStep1 (c2 :: rest)

/-- Models `[-_\s]` -/
def isDashWsOrUnderscore (c : Char) : Bool := isWsOrUnderscore c || c.toNat == 45

/-- Models `replace(/[-_\s]+/g, ' ')` (run-collapsing, as in `kebabStep2`). -/
def startStep2 (prevWs : Bool) : List Char → List Char
  | [] => []
  | c :: cs =>
    if isDashWsOrUnderscore c then
      if prevWs then startStep2 true cs else ' ' :: startStep2 true cs
    else c :: startStep2 false cs

/-- Models `replace(/\b\w/g, char => char.toUpperCase())`: a word character not
preceded by a word character is upper-cased. -/
def upperFirstWords (prevWord : Bool) : List Char → List Char
  | [] => []
  | c :: cs =>
    if isWordChar c then
      (if prevWord then c else toUpperChar c) :: upperFirstWords true cs
    else c :: upperFirstWords false cs

/-- Models `String.prototype.trim` -/
def trimChars (l : List Char) : List Char :=
  ((l.dropWhile isJsWs).reverse.dropWhile isJsWs).reverse

/-- Models `startCase` from `src/utils/config.ts`. -/
def startCase (str : String) : String :=
  ⟨trimChars (upperFirstWords false (startStep2 false (startStep1 str.data)))⟩

/-! ## Registry items and their schema
(`src/config/schemas.ts` / `RegistryGenerator.generateRegistryItem`)

The zod `RegistryItemSchema` is embedded as a decidable check over an item
value whose statically-string fields are typed `String` (their `z.string()`
checks hold identically on this representation).  Two fields can carry
arbitrary extracted values at runtime and are therefore typed `JsValue`, with
their zod checks made explicit: `description` (the generator can return a
non-string documentation value verbatim) and `cssVars` (copied untyped from
story parameters).  Crucially, `files` is `z.array(RegistryFileSchema)` with
no minimum length: the empty array passes. -/

/-- Models `RegistryFileSchema`: `{ path: string, type: enum, target?: string }`. -/
structure RegistryFileValue where
  path : String
  type : String
  target : Option String
deriving DecidableEq

/-- The closed enum of registry item/file types. -/
def registryTypeEnum : List String :=
  ["registry:component", "registry:ui", "registry:lib", "registry:hook",
   "registry:block", "registry:page", "registry:file", "registry:style",
   "registry:theme"]

/-- The value assembled by `generateRegistryItem` and checked by
`RegistryItemSchema.safeParse`. -/
structure RegistryItemValue where
  schemaUrl : Option String
  name : String
  type : String
  title : String
  description : JsValue
  author : Option String
  dependencies : Option (List String)
  registryDependencies : Option (List String)
  files : List RegistryFileValue
  cssVars : Option JsValue
  tailwind : Option JsValue

/-- The per-file check of `RegistryFileSchema`: the `type` must come from the
enum (`path` and `target` are strings by construction). -/
def registryFileCheck (f : RegistryFileValue) : Bool :=
  registryTypeEnum.contains f.type

/-- Models `z.string()` on a runtime value. -/
def isStrCheck : JsValue → Bool
  | .str _ => true
  | _ => false

/-- The `cssVars` object schema: an object whose `theme`, `light` and `dark`
members, when present, are records of strings (zod rejects any non-object,
including arrays and `null`). -/
def cssVarsCheck (v : JsValue) : Bool :=
  match v with
  | .obj fields =>
      ["theme", "light", "dark"].all (fun k =>
        match jsObjGet fields k with
        | some (.obj kvs) => kvs.all (fun p => isStrCheck p.2)
        | some _ => false
        | none => true)
  | _ => false

/-- The `tailwind` object schema: an object whose `config` member, when
present, is an object. -/
def tailwindCheck (v : JsValue) : Bool :=
  match v with
  | .obj fields =>
      (match jsObjGet fields "config" with
       | some (.obj _) => true
       | some _ => false
       | none => true)
  | _ => false

/-- Models `RegistryItemSchema.safeParse(item).success` on assembled item values.
`files` is checked entry-wise with no length constraint. -/
def RegistryItemSchema_safeParse (item : RegistryItemValue) : Bool :=
  registryTypeEnum.contains item.type
    && item.files.all registryFileCheck
    && isStrCheck item.description
    && (match item.cssVars with
        | some v => cssVarsCheck v
        | none => true)
    && (match item.tailwind with
        | some v => tailwindCheck v
        | none => true)

/-- The slice of `SyncConfig` the generator reads. -/
structure SyncConfigModel where
  componentTypeRules : List ComponentTypeRule
  dependencyMapping : List (String × String)

/-- Models `RegistryGenerator.getFileType`. -/
def getFileType : RegistryItemType → RegistryItemType
  | .block => .component
  | .ui => .ui
  | .hook => .hook
  | .lib => .lib
  | _ => .component

/-- Models `RegistryGenerator.generateRegistryPath`. -/
def generateRegistryPath (componentName fileType : String) : String :=
  let basePath := "registry/default/" ++ componentName
  if fileType = "component" then basePath ++ "/" ++ componentName ++ ".tsx"
  else if fileType = "index" then basePath ++ "/index.ts"
  else if fileType = "hook" then basePath ++ "/use-" ++ componentName ++ ".ts"
  else if fileType = "lib" then basePath ++ "/" ++ componentName ++ ".ts"
  else basePath ++ "/" ++ componentName ++ ".tsx"

/-- Models `RegistryGenerator.generateFiles`: one conventional component file when a
component path was resolved (truthy), plus one `index` file when the type is
`block`. -/
def generateFiles (sf : ParsedStoryFile) (ty : RegistryItemType) :
    List RegistryFileValue :=
  let componentName := kebabCase sf.componentName
  let files : List RegistryFileValue :=
    if !sf.componentPath.data.isEmpty then
      [{ path := generateRegistryPath componentName "component",
         type := registryTypeStr (getFileType ty), target := none }]
    else []
  if ty = RegistryItemType.block then
    files ++ [{ path := generateRegistryPath componentName "index",
                type := "registry:component", target := none }]
  else files

/-- Tells whether `meta.title` is safe for `RegistryGenerator.generateTitle`:
absent, a string, or falsy.  On a non-string *truthy* title the source throws
a `TypeError` at `storyFile.meta.title.split` — an exception this pure
embedding cannot mirror inside `generateTitle`, so every theorem about the
generator that must not hit that error path assumes this predicate. -/
def titleSplitSafe (sf : ParsedStoryFile) : Bool :=
  match sf.meta.title with
  | none => true
  | some (JsValue.str _) => true
  | some v => !jsTruthy v

/-- Models `RegistryGenerator.generateTitle`: last segment of the declared title
path (falling back to the component name when that segment is empty), else a
Start-Case rendering of the component name.  On a non-string truthy `title` —
the case `titleSplitSafe` rules out — the source throws a `TypeError` at
`title.split` and never returns; the value the model gives that branch is an
arbitrary total extension, and no theorem below reaches it: claims about the
generator carry `titleSplitSafe` as a hypothesis. -/
def generateTitle (sf : ParsedStoryFile) : String :=
  match sf.meta.title with
  | some (JsValue.str t) =>
      if t.data.isEmpty then startCase sf.componentName
      else
        match (splitOnChar '/' t.data).getLast? with
        | some last => if last.isEmpty then sf.componentName else ⟨last⟩
        | none => sf.componentName
  | some v => if jsTruthy v then sf.componentName else startCase sf.componentName
  | none => startCase sf.componentName

/-- The generated default description sentence. -/
def defaultDescription (sf : ParsedStoryFile) : JsValue :=
  JsValue.str ("A " ++ sf.componentName ++ " component.")

/-- Models `RegistryGenerator.generateDescription`: the nested
`parameters.docs.description`, supporting a bare string and an object with a
truthy `component` member (returned verbatim, hence `JsValue`-typed), else the
default sentence. -/
def generateDescription (sf : ParsedStoryFile) : JsValue :=
  match sf.meta.parameters with
  | some (JsValue.obj fields) =>
      match jsObjGet fields "docs" with
      | some (JsValue.obj docsFields) =>
          match jsObjGet docsFields "description" with
          | some d =>
              if jsTruthy d then
                match d with
                | JsValue.str s => JsValue.str s
                | JsValue.obj dfields =>
                    (match jsObjGet dfields "component" with
                     | some c => if jsTruthy c then c else defaultDescription sf
                     | none => defaultDescription sf)
                | _ => defaultDescription sf
              else defaultDescription sf
          | none => defaultDescription sf
      | _ => defaultDescription sf
  | _ => defaultDescription sf

/-- JavaScript string order (code-unit lexicographic `<`). -/
def charListLe : List Char → List Char → Bool
  | [], _ => true
  | _ :: _, [] => false
  | a :: as, b :: bs =>
    if a.toNat < b.toNat then true
    else if b.toNat < a.toNat then false
    else charListLe as bs

def insertSorted (x : String) : List String → List String
  | [] => [x]
  | y :: ys => if charListLe x.data y.data then x :: y :: ys else y :: insertSorted x ys

/-- Models `Array.prototype.sort()` on strings: code-unit lexicographic order.  The
generator sorts deduplicated lists, on which every sort agrees; insertion sort
is used here. -/
def jsSortStrings (l : List String) : List String := l.foldr insertSorted []

/-- Models `RegistryGenerator.generateDependencies`: non-relative imports, renamed
through `dependencyMapping` (a falsy mapping falls back to the original),
deduplicated, sorted. -/
def generateDependencies (cfg : SyncConfigModel) (sf : ParsedStoryFile) :
    List String :=
  jsSortStrings
    (sf.dependencies.foldl
      (fun acc dep =>
        if strStartsWith dep "." then acc
        else
          let mapped :=
            match List.find? (fun p => p.1 == dep) cfg.dependencyMapping with
            | some p => if p.2.data.isEmpty then dep else p.2
            | none => dep
          if !mapped.data.isEmpty && !(acc.contains mapped) then acc ++ [mapped]
          else acc)
      [])

/-- The fixed catalog of known foundational component names. -/
def commonComponents : List String :=
  ["button", "input", "label", "card", "dialog", "dropdown-menu",
   "select", "checkbox", "radio-group", "switch", "textarea",
   "tooltip", "popover", "accordion", "alert", "badge", "avatar"]

/-- Models `RegistryGenerator.generateRegistryDependencies`: case-insensitive
substring match of each import against the catalog, deduplicated, sorted. -/
def generateRegistryDependencies (sf : ParsedStoryFile) : List String :=
  jsSortStrings
    (sf.dependencies.foldl
      (fun acc dep =>
        commonComponents.foldl
          (fun acc2 comp =>
            if strHasSub (strToLower dep) comp && !(acc2.contains comp) then
              acc2 ++ [comp]
            else acc2)
          acc)
      [])

/-- Models `typeof v === "object"` (true for objects, arrays and `null`). -/
def isTypeofObject : JsValue → Bool
  | .obj _ => true
  | .arr _ => true
  | .null => true
  | _ => false

/-- Models `RegistryGenerator.generateCssVars`: the raw `parameters.cssVars` value
when it is truthy and of object type. -/
def generateCssVars (sf : ParsedStoryFile) : Option JsValue :=
  match sf.meta.parameters with
  | some (JsValue.obj fields) =>
      match jsObjGet fields "cssVars" with
      | some v => if jsTruthy v && isTypeofObject v then some v else none
      | none => none
  | _ => none

/-- The item value `generateRegistryItem` assembles before validating. -/
def assembleItem (cfg : SyncConfigModel) (sf : ParsedStoryFile)
    (analysis : Option AnalysisLite) : RegistryItemValue :=
  let ty := determineItemType sf analysis cfg.componentTypeRules
  let dependencies := generateDependencies cfg sf
  let registryDependencies := generateRegistryDependencies sf
  { schemaUrl := some "https://ui.shadcn.com/schema/registry-item.json",
    name := kebabCase sf.componentName,
    type := registryTypeStr ty,
    title := generateTitle sf,
    description := generateDescription sf,
    author := none,
    dependencies := if dependencies.length > 0 then some dependencies else none,
    registryDependencies :=
      if registryDependencies.length > 0 then some registryDependencies else none,
    files := generateFiles sf ty,
    cssVars := generateCssVars sf,
    tailwind := none }

/-- Models `RegistryGenerator.generateRegistryItem`: `null` for a falsy component
name, else the assembled item — validated; a failing validation raises
`REGISTRY_ITEM_VALIDATION_ERROR` (the message carries the rendering zod gives of the
failure, abbreviated here). -/
def generateRegistryItem (cfg : SyncConfigModel) (sf : ParsedStoryFile)
    (analysis : Option AnalysisLite) :
    Except SyncError (Option RegistryItemValue) :=
  if sf.componentName.data.isEmpty then .ok none
  else
    if RegistryItemSchema_safeParse (assembleItem cfg sf analysis) then
      .ok (some (assembleItem cfg sf analysis))
    else
      .error (createError "Generated registry item is invalid"
        "REGISTRY_ITEM_VALIDATION_ERROR" (some sf.filePath))

/-- The concrete empty-files item of the C1 counterexample: every required
field present and well-formed, `files` empty. -/
def emptyFilesItem : RegistryItemValue :=
  { schemaUrl := none,
    name := "button",
    type := "registry:component",
    title := "Button",
    description := JsValue.str "A Button component.",
    author := none,
    dependencies := none,
    registryDependencies := none,
    files := [],
    cssVars := none,
    tailwind := none }

/-- A parsed story file whose component path was not resolved, so the
generator synthesizes no files. -/
def sf0 : ParsedStoryFile :=
  { filePath := "/src/button.stories.tsx",
    meta := { title := some (JsValue.str "Components/Button"),
              component := some (JsValue.str "Button"),
              decorators := none, parameters := none, args := none,
              argTypes := none, tags := none },
    stories := [],
    dependencies := [],
    componentName := "Button",
    componentPath := "" }

/-- A configuration with no type rules and no dependency renames. -/
def cfg0 : SyncConfigModel :=
  { componentTypeRules := [], dependencyMapping := [] }

/-! ## Theorems -/

theorem toNat_toLowerChar_of_upper {c : Char} (h : isUpperAZ c = true) :
    (toLowerChar c).toNat = c.toNat + 32 := by
  unfold toLowerChar
  rw [dif_pos h]
  rfl

theorem toLowerChar_of_not_upper {c : Char} (h : isUpperAZ c = false) :
    toLowerChar c = c := by
  unfold toLowerChar
  rw [dif_neg (by simp [h])]

theorem isUpperAZ_toLowerChar (c : Char) : isUpperAZ (toLowerChar c) = false := by
  by_cases h : isUpperAZ c = true
  · have ht := toNat_toLowerChar_of_upper h
    simp only [isUpperAZ, Bool.and_eq_true, decide_eq_true_eq] at h
    simp only [isUpperAZ, ht, Bool.and_eq_false_iff, decide_eq_false_iff_not]
    omega
  · rw [toLowerChar_of_not_upper (by simpa using h)]
    simpa using h

theorem toLowerChar_idem (c : Char) : toLowerChar (toLowerChar c) = toLowerChar c :=
  toLowerChar_of_not_upper (isUpperAZ_toLowerChar c)

theorem isWsOrUnderscore_of_range {c : Char}
    (h : (65 ≤ c.toNat ∧ c.toNat ≤ 90) ∨ (97 ≤ c.toNat ∧ c.toNat ≤ 122)) :
    isWsOrUnderscore c = false := by
  simp only [isWsOrUnderscore, isJsWs, jsWsCodes, List.mem_cons, List.not_mem_nil,
    or_false, Bool.or_eq_false_iff, decide_eq_false_iff_not, beq_eq_false_iff_ne,
    ne_eq]
  omega

theorem isWsOrUnderscore_toLowerChar (c : Char) :
    isWsOrUnderscore (toLowerChar c) = isWsOrUnderscore c := by
  by_cases h : isUpperAZ c = true
  · have ht := toNat_toLowerChar_of_upper h
    simp only [isUpperAZ, Bool.and_eq_true, decide_eq_true_eq] at h
    rw [isWsOrUnderscore_of_range (Or.inr (by omega)),
      isWsOrUnderscore_of_range (Or.inl (by omega))]
  · rw [toLowerChar_of_not_upper (by simpa using h)]

theorem kebabStep2_mem {b : Bool} {l : List Char} {c : Char}
    (h : c ∈ kebabStep2 b l) : isWsOrUnderscore c = false := by
  induction l generalizing b with
  | nil => simp [kebabStep2] at h
  | cons x xs ih =>
      rw [kebabStep2] at h
      by_cases hx : isWsOrUnderscore x
      · rw [if_pos hx] at h
        cases b with
        | true =>
            rw [if_pos rfl] at h
            exact ih h
        | false =>
            rw [if_neg (by simp)] at h
            rcases List.mem_cons.mp h with rfl | h
            · decide
            · exact ih h
      · rw [if_neg hx] at h
        rcases List.mem_cons.mp h with rfl | h
        · simpa using hx
        · exact ih h

theorem kebabStep1_id {l : List Char} (h : ∀ c ∈ l, isUpperAZ c = false) :
    kebabStep1 l = l := by
  induction l using kebabStep1.induct with
  | case1 => rfl
  | case2 => rfl
  | case3 c1 c2 rest hc ih =>
      exfalso
      have h2 := h c2 (by simp)
      rw [Bool.and_eq_true, h2] at hc
      exact absurd hc.2 (by simp)
  | case4 c1 c2 rest hc ih =>
      rw [kebabStep1, if_neg hc]
      have := ih (fun c hc' => h c (List.mem_cons_of_mem _ hc'))
      rw [this]

theorem kebabStep2_id {b : Bool} {l : List Char}
    (h : ∀ c ∈ l, isWsOrUnderscore c = false) : kebabStep2 b l = l := by
  induction l generalizing b with
  | nil => rfl
  | cons x xs ih =>
      rw [kebabStep2, if_neg (by simp [h x (List.mem_cons_self x xs)])]
      rw [ih (fun c hc => h c (List.mem_cons_of_mem _ hc))]

theorem map_toLowerChar_id {l : List Char}
    (h : ∀ c ∈ l, toLowerChar c = c) : l.map toLowerChar = l := by
  induction l with
  | nil => rfl
  | cons x xs ih =>
      simp only [List.map_cons, h x (List.mem_cons_self x xs), List.cons.injEq,
        true_and]
      exact ih fun c hc => h c (List.mem_cons_of_mem _ hc)

/-- C9. `kebabCase` is idempotent: applying it twice gives the same result as
applying it once, for every string. -/
theorem kebabCase_idem (x : String) : kebabCase (kebabCase x) = kebabCase x := by
  unfold kebabCase
  set y : List Char := (kebabStep2 false (kebabStep1 x.data)).map toLowerChar with hy
  have hdata : (String.mk y).data = y := rfl
  rw [hdata]
  -- every character of `y` is lower-cased output: never in `A`–`Z`
  have hyUp : ∀ c ∈ y, isUpperAZ c = false := by
    intro c hc
    rw [hy] at hc
    rcases List.mem_map.mp hc with ⟨c0, _, rfl⟩
    exact isUpperAZ_toLowerChar c0
  -- every character of `y` survived the whitespace collapse: never in `[\s_]`
  have hyWs : ∀ c ∈ y, isWsOrUnderscore c = false := by
    intro c hc
    rw [hy] at hc
    rcases List.mem_map.mp hc with ⟨c0, hc0, rfl⟩
    rw [isWsOrUnderscore_toLowerChar]
    exact kebabStep2_mem hc0
  have hyLow : ∀ c ∈ y, toLowerChar c = c := by
    intro c hc
    rw [hy] at hc
    rcases List.mem_map.mp hc with ⟨c0, _, rfl⟩
    exact toLowerChar_idem c0
  rw [kebabStep1_id hyUp, kebabStep2_id hyWs, map_toLowerChar_id hyLow]

/-- C3. `analyzeDependency` drops a specifier exactly when it begins with
`@storybook/`; otherwise it returns exactly one record whose kind is given by
the total, mutually-exclusive lexical case split: leading `.` → internal,
leading `@` or no `/` → npm, anything else → registry-external. -/
theorem analyzeDependency_partition (resolvePath : String → String → String)
    (pkgVersion : String → Option String) (importPath fromFile : String) :
    (analyzeDependency resolvePath pkgVersion importPath fromFile = none ↔
      strStartsWith importPath "@storybook/" = true)
    ∧ (strStartsWith importPath "@storybook/" = false →
        ∃ d, analyzeDependency resolvePath pkgVersion importPath fromFile = some d
          ∧ d.name = importPath ∧ d.type = lexicalDepKind importPath)
    ∧ ((strStartsWith importPath "." = true ∧
          lexicalDepKind importPath = DepType.internal) ∨
       (strStartsWith importPath "." = false ∧
          (strStartsWith importPath "@" || !(strContainsChar importPath '/')) = true ∧
          lexicalDepKind importPath = DepType.npm) ∨
       (strStartsWith importPath "." = false ∧
          (strStartsWith importPath "@" || !(strContainsChar importPath '/')) = false ∧
          lexicalDepKind importPath = DepType.registry)) := by
  refine ⟨?_, ?_, ?_⟩
  · constructor
    · intro h
      by_contra hns
      rw [Bool.not_eq_true] at hns
      rw [analyzeDependency, if_neg (by simp [hns])] at h
      split at h
      · exact Option.noConfusion h
      · split at h
        · exact Option.noConfusion h
        · exact Option.noConfusion h
    · intro h
      rw [analyzeDependency, if_pos h]
  · intro h
    by_cases h1 : strStartsWith importPath "." = true
    · simp only [analyzeDependency, lexicalDepKind, h, h1, Bool.false_eq_true,
        if_false, if_true]
      exact ⟨_, rfl, rfl, rfl⟩
    · rw [Bool.not_eq_true] at h1
      by_cases h2 : (strStartsWith importPath "@" || !(strContainsChar importPath '/')) = true
      · simp only [analyzeDependency, lexicalDepKind, h, h1, h2,
          Bool.false_eq_true, if_false, if_true]
        exact ⟨_, rfl, rfl, rfl⟩
      · rw [Bool.not_eq_true] at h2
        simp only [analyzeDependency, lexicalDepKind, h, h1, h2,
          Bool.false_eq_true, if_false, if_true]
        exact ⟨_, rfl, rfl, rfl⟩
  · by_cases h1 : strStartsWith importPath "." = true
    · simp [lexicalDepKind, h1]
    · rw [Bool.not_eq_true] at h1
      by_cases h2 : (strStartsWith importPath "@" || !(strContainsChar importPath '/')) = true
      · simp [lexicalDepKind, h1, h2]
      · rw [Bool.not_eq_true] at h2
        simp [lexicalDepKind, h1, h2]

/-- Witness for C3 at concrete specifiers: `@storybook/react` is dropped,
`components/button` (no leading `.` or `@`, containing `/`) is classified
registry-external. -/
theorem analyzeDependency_partition_witness :
    (analyzeDependency (fun _ _ => "") (fun _ => none) "@storybook/react" "f.ts"
        = none)
    ∧ (∃ d, analyzeDependency (fun _ _ => "") (fun _ => none) "components/button" "f.ts"
        = some d ∧ d.name = "components/button" ∧ d.type = lexicalDepKind "components/button") := by
  constructor
  · exact (analyzeDependency_partition (fun _ _ => "") (fun _ => none)
      "@storybook/react" "f.ts").1.mpr (by decide)
  · exact (analyzeDependency_partition (fun _ _ => "") (fun _ => none)
      "components/button" "f.ts").2.1 (by decide)

theorem complexityRaw_nonneg (f l d p s : ℕ) : 0 ≤ complexityRaw f l d p s := by
  unfold complexityRaw
  have h1 : (0:ℚ) ≤ min (l : ℚ) 1000 / 10 := by positivity
  positivity

theorem complexityRaw_mono {f l d p s f' l' d' p' s' : ℕ} (hf : f ≤ f') (hl : l ≤ l')
    (hd : d ≤ d') (hp : p ≤ p') (hs : s ≤ s') :
    complexityRaw f l d p s ≤ complexityRaw f' l' d' p' s' := by
  unfold complexityRaw
  have hfq : (f : ℚ) ≤ f' := by exact_mod_cast hf
  have hlq : (l : ℚ) ≤ l' := by exact_mod_cast hl
  have hdq : (d : ℚ) ≤ d' := by exact_mod_cast hd
  have hpq : (p : ℚ) ≤ p' := by exact_mod_cast hp
  have hsq : (s : ℚ) ≤ s' := by exact_mod_cast hs
  gcongr

theorem analyzeComplexityScore_mono {f l d p s f' l' d' p' s' : ℕ} (hf : f ≤ f')
    (hl : l ≤ l') (hd : d ≤ d') (hp : p ≤ p') (hs : s ≤ s') :
    analyzeComplexityScore f l d p s ≤ analyzeComplexityScore f' l' d' p' s' := by
  unfold analyzeComplexityScore jsRound
  have := complexityRaw_mono hf hl hd hp hs
  gcongr

/-- C5. The complexity score equals `round(clamp(10·fileCount +
min(lineCount,1000)/10 + 5·dependencyCount + 2·propCount + 3·storyCount, 0,
100))`; consequently it always lies in `[0, 100]` and is monotone
non-decreasing in each of the five measures separately. -/
theorem analyzeComplexityScore_spec (f l d p s : ℕ) :
    (analyzeComplexityScore f l d p s = jsRound (clampQ (complexityRaw f l d p s) 0 100))
    ∧ (0 ≤ analyzeComplexityScore f l d p s ∧ analyzeComplexityScore f l d p s ≤ 100)
    ∧ (∀ f', f ≤ f' → analyzeComplexityScore f l d p s ≤ analyzeComplexityScore f' l d p s)
    ∧ (∀ l', l ≤ l' → analyzeComplexityScore f l d p s ≤ analyzeComplexityScore f l' d p s)
    ∧ (∀ d', d ≤ d' → analyzeComplexityScore f l d p s ≤ analyzeComplexityScore f l d' p s)
    ∧ (∀ p', p ≤ p' → analyzeComplexityScore f l d p s ≤ analyzeComplexityScore f l d p' s)
    ∧ (∀ s', s ≤ s' → analyzeComplexityScore f l d p s ≤ analyzeComplexityScore f l d p s') := by
  have hnn := complexityRaw_nonneg f l d p s
  have hclamp : clampQ (complexityRaw f l d p s) 0 100 =
      min 100 (complexityRaw f l d p s) := by
    unfold clampQ
    rw [max_eq_right]
    exact le_min (by norm_num) hnn
  refine ⟨by rw [hclamp]; rfl, ⟨?_, ?_⟩, ?_, ?_, ?_, ?_, ?_⟩
  · unfold analyzeComplexityScore jsRound
    have h0 : (0:ℤ) = ⌊(0:ℚ) + 1/2⌋ := by norm_num
    rw [h0]
    gcongr
    exact le_min (by norm_num) hnn
  · unfold analyzeComplexityScore jsRound
    have h100 : ⌊(100:ℚ) + 1/2⌋ = 100 := by norm_num [Int.floor_eq_iff]
    rw [← h100]
    apply Int.floor_le_floor
    have := min_le_left (100:ℚ) (complexityRaw f l d p s)
    linarith
  · exact fun f' hf => analyzeComplexityScore_mono hf le_rfl le_rfl le_rfl le_rfl
  · exact fun l' hl => analyzeComplexityScore_mono le_rfl hl le_rfl le_rfl le_rfl
  · exact fun d' hd => analyzeComplexityScore_mono le_rfl le_rfl hd le_rfl le_rfl
  · exact fun p' hp => analyzeComplexityScore_mono le_rfl le_rfl le_rfl hp le_rfl
  · exact fun s' hs => analyzeComplexityScore_mono le_rfl le_rfl le_rfl le_rfl hs

/-- Witness for C5 at concrete measures: the score of `(2, 150, 3, 4, 2)` is
computed, bounded, and monotone into `(2, 150, 3, 4, 5)`. -/
theorem analyzeComplexityScore_spec_witness :
    analyzeComplexityScore 2 150 3 4 2 = 64
    ∧ analyzeComplexityScore 2 150 3 4 2 ≤ analyzeComplexityScore 2 150 3 4 5 := by
  constructor
  · unfold analyzeComplexityScore jsRound complexityRaw
    norm_num [Int.floor_eq_iff]
  · exact (analyzeComplexityScore_spec 2 150 3 4 2).2.2.2.2.2.2 5 (by norm_num)

theorem dfsVisit_stack (g : DepGraph) :
    ∀ (fuel : Nat) (file : String) (path : List String) (st : DfsState),
      (dfsVisit g fuel file path st).stack = st.stack := by
  intro fuel
  induction fuel with
  | zero => intro file path st; rfl
  | succ fuel ih =>
      intro file path st
      rw [dfsVisit]
      by_cases hs : file ∈ st.stack
      · rw [if_pos hs]
        by_cases hp : file ∈ path
        · rw [if_pos hp]
        · rw [if_neg hp]
      · rw [if_neg hs]
        by_cases hv : file ∈ st.visited
        · rw [if_pos hv]
        · rw [if_neg hv]
          have hfold : ∀ (deps : List DependencyInfo) (s : DfsState),
              ((deps.foldl
                (fun s dep =>
                  match dep.path with
                  | some p =>
                    if dep.type = DepType.internal ∧ p ≠ "" then
                      dfsVisit g fuel p (path ++ [file]) s
                    else s
                  | none => s) s).stack = s.stack) := by
            intro deps
            induction deps with
            | nil => intro s; rfl
            | cons dep rest ihd =>
                intro s
                rw [List.foldl_cons]
                rcases hdp : dep.path with _ | p
                · simp only [hdp]
                  exact ihd s
                · simp only [hdp]
                  by_cases hc : dep.type = DepType.internal ∧ p ≠ ""
                  · rw [if_pos hc, ihd, ih]
                  · rw [if_neg hc, ihd]
          simp only [hfold]
          rw [List.erase_append_right _ (by simpa using hs)]
          simp

theorem chain_append_transGen {R : String → String → Prop} :
    ∀ (l : List String) (a b : String), List.Chain R a (l ++ [b]) →
      Relation.TransGen R a b := by
  intro l
  induction l with
  | nil =>
      intro a b h
      rw [List.nil_append, List.chain_cons] at h
      exact Relation.TransGen.single h.1
  | cons c t ih =>
      intro a b h
      rw [List.cons_append, List.chain_cons] at h
      exact Relation.TransGen.head h.1 (ih c b h.2)

theorem chain'_mem_cycle {R : String → String → Prop} {path : List String}
    {file : String} (hm : file ∈ path) (hch : List.Chain' R (path ++ [file])) :
    Relation.TransGen R file file := by
  rcases List.append_of_mem hm with ⟨l₁, l₂, rfl⟩
  rw [List.append_assoc, List.cons_append] at hch
  have hch2 : List.Chain' R (file :: (l₂ ++ [file])) := hch.right_of_append
  have hchain : List.Chain R file (l₂ ++ [file]) := hch2
  exact chain_append_transGen _ _ _ hchain

theorem dfsVisit_cycles (g : DepGraph)
    (acyc : ∀ x, ¬ Relation.TransGen (EdgeR g) x x) :
    ∀ (fuel : Nat) (file : String) (path : List String) (st : DfsState),
      (∀ x, x ∈ st.stack ↔ x ∈ path) →
      List.Chain' (EdgeR g) (path ++ [file]) →
      (dfsVisit g fuel file path st).cycles = st.cycles := by
  intro fuel
  induction fuel with
  | zero => intro file path st _ _; rfl
  | succ fuel ih =>
      intro file path st hiff hch
      rw [dfsVisit]
      have hnotstack : file ∉ st.stack := by
        intro hmem
        exact acyc file (chain'_mem_cycle ((hiff file).mp hmem) hch)
      rw [if_neg hnotstack]
      by_cases hv : file ∈ st.visited
      · rw [if_pos hv]
      · rw [if_neg hv]
        have hnp : file ∉ path := fun hp => hnotstack ((hiff file).mpr hp)
        have hfold : ∀ (deps : List DependencyInfo),
            (∀ d ∈ deps, d ∈ graphDeps g file) → ∀ (s : DfsState),
            (∀ x, x ∈ s.stack ↔ x ∈ path ++ [file]) →
            ((deps.foldl
              (fun s dep =>
                match dep.path with
                | some p =>
                  if dep.type = DepType.internal ∧ p ≠ "" then
                    dfsVisit g fuel p (path ++ [file]) s
                  else s
                | none => s) s).cycles = s.cycles) := by
          intro deps
          induction deps with
          | nil => intro _ s _; rfl
          | cons dep rest ihd =>
              intro hmem s hsiff
              rw [List.foldl_cons]
              rcases hdp : dep.path with _ | p
              · simp only [hdp]
                exact ihd (fun d hd => hmem d (List.mem_cons_of_mem _ hd)) s hsiff
              · simp only [hdp]
                by_cases hc : dep.type = DepType.internal ∧ p ≠ ""
                · rw [if_pos hc]
                  have hedge : EdgeR g file p :=
                    ⟨dep, hmem dep (List.mem_cons_self dep rest), hc.1, hdp, hc.2⟩
                  have hch' : List.Chain' (EdgeR g) ((path ++ [file]) ++ [p]) := by
                    apply List.Chain'.append hch (by simp)
                    intro x hx y hy
                    rw [List.getLast?_concat] at hx
                    simp only [Option.mem_def, Option.some.injEq, List.head?_cons] at hx hy
                    rw [← hx, ← hy]
                    exact hedge
                  have hstack' : ∀ x, x ∈ (dfsVisit g fuel p (path ++ [file]) s).stack
                      ↔ x ∈ path ++ [file] := by
                    intro x
                    rw [dfsVisit_stack]
                    exact hsiff x
                  rw [ihd (fun d hd => hmem d (List.mem_cons_of_mem _ hd)) _ hstack']
                  exact ih p (path ++ [file]) s hsiff hch'
                · rw [if_neg hc]
                  exact ihd (fun d hd => hmem d (List.mem_cons_of_mem _ hd)) s hsiff
        have hs1 : ∀ x, x ∈ st.stack ++ [file] ↔ x ∈ path ++ [file] := by
          intro x
          simp only [List.mem_append, List.mem_singleton]
          rw [hiff x]
        rw [hfold (graphDeps g file) (fun _ hd => hd) _ hs1]

/-- C4. Cycle detection returns the empty list on every graph whose
internal-only subgraph is acyclic, and on the two-file mutual-import graph it
returns exactly one cycle whose elements are exactly the two file paths. -/
theorem findCircularDependencies_spec :
    (∀ g : DepGraph, (∀ x, ¬ Relation.TransGen (EdgeR g) x x) →
      findCircularDependencies g = [])
    ∧ findCircularDependencies mutualGraph = [["a.ts", "b.ts"]] := by
  constructor
  · intro g acyc
    unfold findCircularDependencies
    have hkeys : ∀ (keys : List String) (st : DfsState), st.stack = [] →
        ((keys.foldl
          (fun st file =>
            if file ∈ st.visited then st else dfsVisit g (totalFuel g) file [] st)
          st).cycles = st.cycles ∧
         (keys.foldl
          (fun st file =>
            if file ∈ st.visited then st else dfsVisit g (totalFuel g) file [] st)
          st).stack = []) := by
      intro keys
      induction keys with
      | nil => intro st hst; exact ⟨rfl, hst⟩
      | cons k kt ih =>
          intro st hst
          rw [List.foldl_cons]
          by_cases hv : k ∈ st.visited
          · rw [if_pos hv]
            exact ih st hst
          · rw [if_neg hv]
            have hiff : ∀ x, x ∈ st.stack ↔ x ∈ ([] : List String) := by
              intro x
              rw [hst]
            have hcy := dfsVisit_cycles g acyc (totalFuel g) k [] st hiff
              (by simp)
            have hsk : (dfsVisit g (totalFuel g) k [] st).stack = [] := by
              rw [dfsVisit_stack]
              exact hst
            rcases ih (dfsVisit g (totalFuel g) k [] st) hsk with ⟨h1, h2⟩
            exact ⟨by rw [h1, hcy], h2⟩
    exact (hkeys (g.map Prod.fst) { visited := [], stack := [], cycles := [] } rfl).1
  · rfl

/-- A relation with no edge at all has no transitive cycle. -/
theorem transGen_empty {R : String → String → Prop} (hno : ∀ a b, ¬ R a b) :
    ∀ x y, ¬ Relation.TransGen R x y := by
  intro x y h
  induction h with
  | single h' => exact hno _ _ h'
  | tail _ h' _ => exact hno _ _ h'

/-- Witness for C4 on a concrete acyclic graph: the single-file npm-only graph
has no internal edge, so the detector reports no cycles. -/
theorem findCircularDependencies_spec_witness :
    findCircularDependencies npmOnlyGraph = [] := by
  apply findCircularDependencies_spec.1 npmOnlyGraph
  have hnoedge : ∀ a b, ¬ EdgeR npmOnlyGraph a b := by
    rintro a b ⟨d, hd, ht, hp, hb⟩
    unfold graphDeps npmOnlyGraph at hd
    rcases hf : List.find? (fun p => p.1 == a)
        [("a.ts", [{ name := "lodash", type := DepType.npm, version := none,
                     path := none : DependencyInfo }])] with _ | pr
    · simp only [hf] at hd
      exact List.not_mem_nil d hd
    · simp only [hf] at hd
      have hpr := List.mem_of_find?_eq_some hf
      simp only [List.mem_singleton] at hpr
      rw [hpr] at hd
      simp only [List.mem_singleton] at hd
      rw [hd] at ht
      exact DepType.noConfusion ht
  exact fun x h => transGen_empty hnoedge x x h

theorem parseFold_acc {α β : Type} (parse : α → Except SyncError β) :
    ∀ (files : List α) (rs : List β) (es : List SyncError),
      files.foldl
        (fun (acc : List β × List SyncError) f =>
          match parse f with
          | .ok r => (acc.1 ++ [r], acc.2)
          | .error e => (acc.1, acc.2 ++ [e]))
        (rs, es)
      = (rs ++ successList parse files, es ++ failList parse files) := by
  intro files
  induction files with
  | nil =>
      intro rs es
      simp [successList, failList]
  | cons f ft ih =>
      intro rs es
      rw [List.foldl_cons]
      rcases hpf : parse f with e | r
      · simp only [hpf]
        rw [ih]
        simp [successList, failList, List.filterMap_cons, hpf, Except.toOption]
      · simp only [hpf]
        rw [ih]
        simp [successList, failList, List.filterMap_cons, hpf, Except.toOption]

/-- C2. Batch parsing isolates per-file failures: whenever at least one file
succeeds, or no file fails, the batch returns exactly the list of per-file
successes; it raises the fatal `PARSE_ALL_FAILED` error exactly when at least
one file failed and none succeeded. -/
theorem parseStoryFiles_isolates {α β : Type} (parse : α → Except SyncError β)
    (files : List α) :
    (successList parse files ≠ [] →
      parseStoryFiles parse files = Except.ok (successList parse files))
    ∧ (failList parse files = [] →
      parseStoryFiles parse files = Except.ok (successList parse files))
    ∧ (failList parse files ≠ [] → successList parse files = [] →
      ∃ e, parseStoryFiles parse files = Except.error e
        ∧ e.code = "PARSE_ALL_FAILED") := by
  have hacc := parseFold_acc parse files [] []
  rw [List.nil_append, List.nil_append] at hacc
  refine ⟨?_, ?_, ?_⟩
  · intro hs
    rw [parseStoryFiles]
    simp only [hacc]
    rw [if_neg]
    intro hand
    exact hs (List.length_eq_zero.mp hand.2)
  · intro hf
    rw [parseStoryFiles]
    simp only [hacc]
    rw [if_neg]
    intro hand
    rw [hf] at hand
    exact absurd hand.1 (by decide)
  · intro hf hs
    rw [parseStoryFiles]
    simp only [hacc]
    rw [if_pos]
    · exact ⟨_, rfl, rfl⟩
    · constructor
      · cases hfl : failList parse files with
        | nil => exact absurd hfl hf
        | cons e es => simp
      · rw [hs]
        rfl

/-- C10. The empty batch: `parseStoryFiles` returns the empty success list and
does not raise the all-failed error, because the error branch requires the
recorded failure list to be non-empty, not merely the success count to be
zero. -/
theorem parseStoryFiles_empty {α β : Type} (parse : α → Except SyncError β) :
    parseStoryFiles parse ([] : List α) = Except.ok []
    ∧ successList parse ([] : List α) = []
    ∧ ¬((failList parse ([] : List α)).length > 0
        ∧ (successList parse ([] : List α)).length = 0) := by
  refine ⟨rfl, rfl, ?_⟩
  intro h
  have h0 : (failList parse ([] : List α)).length = 0 := rfl
  have h1 := h.1
  omega

/-- Witness for C2 on the scenario batch: one file lacks a meta and one is
valid; the batch returns exactly the one success and records exactly one
parse error, without failing. -/
theorem parseStoryFiles_isolates_witness :
    parseStoryFiles scenarioParse scenarioFiles
      = Except.ok (successList scenarioParse scenarioFiles)
    ∧ (successList scenarioParse scenarioFiles).length = 1
    ∧ (failList scenarioParse scenarioFiles).length = 1
    ∧ (failList scenarioParse scenarioFiles).map (fun e => e.code) = ["PARSE_ERROR"] := by
  refine ⟨(parseStoryFiles_isolates scenarioParse scenarioFiles).1 ?_, rfl, rfl, rfl⟩
  intro hc
  have hlen : (successList scenarioParse scenarioFiles).length = 1 := rfl
  rw [hc] at hlen
  exact absurd hlen (by decide)

theorem firstUpperRun_eq_spec : ∀ l : List Char, firstUpperRun l = listFirstUpperSpec l := by
  intro l
  induction l with
  | nil => rfl
  | cons c cs ih =>
      rw [firstUpperRun, listFirstUpperSpec, List.findIdx?_cons]
      by_cases hc : isUpperAZ c
      · rw [if_pos hc]
        simp [hc]
      · rw [if_neg hc]
        simp only [hc, Bool.false_eq_true, if_false]
        rw [ih, listFirstUpperSpec]
        rcases hidx : cs.findIdx? isUpperAZ with _ | i
        · simp [hidx]
        · simp [hidx]

theorem extractComponentName_not_str (v : JsValue) (h : ∀ s, v ≠ JsValue.str s) :
    extractComponentName v =
      match firstUpperRun (jsToString v).data with
      | some t => (⟨t⟩ : String)
      | none => "UnknownComponent" := by
  cases v with
  | str s => exact absurd rfl (h s)
  | num n => rfl
  | bool b => rfl
  | null => rfl
  | arr xs => rfl
  | obj fs => rfl

/-- C6 counterexample. The claim says the component name always equals the
first upper-camel token of the textual form of the reference (sentinel
`"UnknownComponent"` when there is none); but for the string reference
`"button"`, whose text has no upper-camel token, the code returns the string
verbatim. -/
theorem extractComponentName_counterexample :
    extractComponentName (JsValue.str "button") = "button"
    ∧ firstUpperCamelSpec (jsToString (JsValue.str "button")) = none
    ∧ extractComponentName (JsValue.str "button") ≠ "UnknownComponent" := by
  refine ⟨rfl, rfl, ?_⟩
  decide

/-- C6 amended. A string component reference is returned verbatim; for every
non-string reference the component name is the first upper-camel-case token of
the JavaScript string form of the value, defaulting to `"UnknownComponent"` when
there is none. -/
theorem extractComponentName_amended (v : JsValue) :
    (∀ s, v = JsValue.str s → extractComponentName v = s)
    ∧ ((∀ s, v ≠ JsValue.str s) →
        extractComponentName v =
          (firstUpperCamelSpec (jsToString v)).getD "UnknownComponent") := by
  constructor
  · intro s hs
    subst hs
    rfl
  · intro h
    rw [extractComponentName_not_str v h, firstUpperRun_eq_spec, firstUpperCamelSpec]
    rcases listFirstUpperSpec (jsToString v).data with _ | t
    · rfl
    · rfl

/-- Witness for C6 (amended) at a non-string reference: a plain object prints
`"[object Object]"`, whose first upper-camel token is `"Object"`. -/
theorem extractComponentName_amended_witness :
    extractComponentName (JsValue.obj [])
      = (firstUpperCamelSpec (jsToString (JsValue.obj []))).getD "UnknownComponent"
    ∧ extractComponentName (JsValue.obj []) = "Object" :=
  ⟨(extractComponentName_amended (JsValue.obj [])).2
      (fun _ hs => JsValue.noConfusion hs),
   by decide⟩

theorem visitNode_deps (sf : SourceFileModel) (st : ParseState) (node : TsNode) :
    (visitNode sf st node).dependencies =
      st.dependencies ++
        (match node with
         | TsNode.importDecl (some t) => [t]
         | _ => []) := by
  cases node with
  | importDecl s =>
      cases s with
      | none => simp [visitNode]
      | some t => simp [visitNode]
  | exportAssignment b e =>
      cases b <;> simp [visitNode]
  | variableStatement ex decls =>
      have hstories : ∀ (ds : List VarDecl) (s : ParseState),
          ((ds.foldl
            (fun s d =>
              match d.name, d.init with
              | some nm, some i =>
                  match extractStory i with
                  | some story =>
                      { s with stories := storiesSet s.stories nm story }
                  | none => s
              | _, _ => s)
            s).dependencies) = s.dependencies := by
        intro ds
        induction ds with
        | nil => intro s; rfl
        | cons d dt ih =>
            intro s
            rw [List.foldl_cons]
            rcases d with ⟨dn, di⟩
            rcases dn with _ | nm
            · exact ih s
            · rcases di with _ | i
              · exact ih s
              · rcases hst : extractStory i with _ | story
                · simp only [hst]
                  exact ih s
                · simp only [hst]
                  rw [ih]
      cases ex with
      | false =>
          rcases decls with _ | ⟨⟨dn, di⟩, dt⟩
          · simp [visitNode]
          · rcases dn with _ | nm
            · simp [visitNode]
            · by_cases hm : isMetaName nm
              · rcases di with _ | i
                · simp [visitNode, hm]
                · simp [visitNode, hm]
              · simp [visitNode, hm]
      | true =>
          rcases decls with _ | ⟨⟨dn, di⟩, dt⟩
          · simp [visitNode, hstories]
          · rcases dn with _ | nm
            · simp only [visitNode]
              rw [hstories]
              simp
            · by_cases hm : isMetaName nm
              · rcases di with _ | i
                · simp only [visitNode, hm, if_true]
                  rw [hstories]
                  simp
                · simp only [visitNode, hm, if_true]
                  rw [hstories]
                  simp
              · simp only [visitNode, hm, Bool.false_eq_true, if_false]
                rw [hstories]
                simp
  | exportDecl names =>
      have hnames : ∀ (ns : List String) (s : ParseState),
          ((ns.foldl
            (fun s storyName =>
              match findStoryDeclaration sf storyName with
              | some story =>
                  { s with stories := storiesSet s.stories storyName story }
              | none => s)
            s).dependencies) = s.dependencies := by
        intro ns
        induction ns with
        | nil => intro s; rfl
        | cons n nt ih =>
            intro s
            rw [List.foldl_cons]
            rcases hfs : findStoryDeclaration sf n with _ | story
            · simp only [hfs]
              exact ih s
            · simp only [hfs]
              rw [ih]
      simp only [visitNode]
      rw [hnames]
      simp
  | dynamicImport a => simp [visitNode]
  | otherNode => simp [visitNode]

theorem visitFold_deps (sf : SourceFileModel) :
    ∀ (nodes : List TsNode) (st : ParseState),
      (nodes.foldl (visitNode sf) st).dependencies
        = st.dependencies ++ staticImportSpecs nodes := by
  intro nodes
  induction nodes with
  | nil =>
      intro st
      simp [staticImportSpecs]
  | cons n nt ih =>
      intro st
      rw [List.foldl_cons, ih, visitNode_deps]
      cases n with
      | importDecl s =>
          cases s with
          | none => simp [staticImportSpecs]
          | some t => simp [staticImportSpecs]
      | exportAssignment b e => simp [staticImportSpecs]
      | variableStatement ex decls => simp [staticImportSpecs]
      | exportDecl names => simp [staticImportSpecs]
      | dynamicImport a => simp [staticImportSpecs]
      | otherNode => simp [staticImportSpecs]

/-- C7 amended. The surviving dependency list of the Tree Parser consists of the
module specifiers of *static* import declarations only, in traversal order,
minus those starting with `@storybook/` and minus the exact specifiers
`react` and `react-dom`; dynamic `import()` arguments are not collected by
this walker. -/
theorem parseSourceFile_dependencies (fileName : String) (sf : SourceFileModel)
    (r : ParsedStoryFile) (h : parseSourceFile fileName sf = Except.ok r) :
    r.dependencies = (staticImportSpecs sf).filter
      (fun d => !(strStartsWith d "@storybook/") && !(d == "react")
        && !(d == "react-dom")) := by
  have hdep : r.dependencies = filterDependencies
      (sf.foldl (visitNode sf)
        { meta := none, stories := [], dependencies := [] }).dependencies := by
    unfold parseSourceFile assembleParsed at h
    split at h
    · exact Except.noConfusion h
    · have hr := (Except.ok.injEq _ _).mp h
      subst hr
      rfl
  rw [hdep, visitFold_deps, List.nil_append]
  rfl

theorem parseSourceFile_dependencies_counterexample :
    ((parseSourceFile "x.stories.ts" c7File).toOption.map
        (fun r => r.dependencies)) = some []
    ∧ claimedSurvivingDeps c7File = ["react-dom", "lodash"]
    ∧ (some ([] : List String) ≠ some (claimedSurvivingDeps c7File)) := by
  refine ⟨rfl, rfl, ?_⟩
  decide

/-- Witness for C7 (amended) on `c7File`. -/
theorem parseSourceFile_dependencies_witness :
    parseSourceFile "x.stories.ts" c7File = Except.ok c7Parsed
    ∧ c7Parsed.dependencies = (staticImportSpecs c7File).filter
        (fun d => !(strStartsWith d "@storybook/") && !(d == "react")
          && !(d == "react-dom")) :=
  ⟨rfl, parseSourceFile_dependencies "x.stories.ts" c7File c7Parsed rfl⟩

/-- C8. With no analyzer classification, the first configured condition-free
rule whose pattern matches wins, regardless of any later matching rules; and
when the pattern of no rule matches, the default is `registry:component`. -/
theorem determineItemType_first_rule :
    (∀ (sf : ParsedStoryFile) (rules1 : List ComponentTypeRule)
        (r1 : ComponentTypeRule) (rules2 : List ComponentTypeRule),
      (∀ r ∈ rules1, matchesPattern sf.filePath r.pattern = false) →
      matchesPattern sf.filePath r1.pattern = true →
      r1.condition = none →
      determineItemType sf none (rules1 ++ r1 :: rules2) = r1.type)
    ∧ (∀ (sf : ParsedStoryFile) (rules : List ComponentTypeRule),
      (∀ r ∈ rules, matchesPattern sf.filePath r.pattern = false) →
      determineItemType sf none rules = RegistryItemType.component) := by
  constructor
  · intro sf rules1 r1 rules2 hnone hmatch hcond
    unfold determineItemType
    induction rules1 with
    | nil =>
        rw [List.nil_append, findRuleType, if_pos hmatch, hcond]
    | cons r rt ih =>
        rw [List.cons_append, findRuleType,
          if_neg (by simp [hnone r (List.mem_cons_self r rt)])]
        exact ih (fun r' hr' => hnone r' (List.mem_cons_of_mem _ hr'))
  · intro sf rules hnone
    unfold determineItemType
    induction rules with
    | nil => rfl
    | cons r rt ih =>
        rw [findRuleType, if_neg (by simp [hnone r (List.mem_cons_self r rt)])]
        exact ih (fun r' hr' => hnone r' (List.mem_cons_of_mem _ hr'))

/-- Witness for C8: both rules match the path, and the earlier (less specific)
rule is chosen; on a batch with no matching rule the default is
returned. -/
theorem determineItemType_first_rule_witness :
    matchesPattern uiStoryFile.filePath uiRule.pattern = true
    ∧ matchesPattern uiStoryFile.filePath buttonRule.pattern = true
    ∧ determineItemType uiStoryFile none [uiRule, buttonRule] = RegistryItemType.ui
    ∧ determineItemType uiStoryFile none [] = RegistryItemType.component := by
  refine ⟨by decide, by decide, ?_, ?_⟩
  · exact determineItemType_first_rule.1 uiStoryFile [] uiRule [buttonRule]
      (fun r hr => absurd hr (List.not_mem_nil r)) (by decide) rfl
  · exact determineItemType_first_rule.2 uiStoryFile []
      (fun r hr => absurd hr (List.not_mem_nil r))

theorem registryTypeStr_mem (t : RegistryItemType) :
    registryTypeEnum.contains (registryTypeStr t) = true := by
  cases t <;> rfl

theorem generateFiles_valid (sf : ParsedStoryFile) (ty : RegistryItemType) :
    (generateFiles sf ty).all registryFileCheck = true := by
  cases ty <;>
    by_cases hcp : (!sf.componentPath.data.isEmpty) = true <;>
      simp [generateFiles, hcp, registryFileCheck, registryTypeEnum,
        getFileType, registryTypeStr]

/-- C1 counterexample.  The claim says an empty `files` array fails schema
validation and makes `generateRegistryItem` raise; but the schema puts no
minimum length on `files`, so the concrete empty-files item passes
`safeParse`, and on `sf0` the generator returns an item whose `files` array is
empty instead of raising. -/
theorem registryItem_emptyFiles_counterexample :
    emptyFilesItem.files = []
    ∧ RegistryItemSchema_safeParse emptyFilesItem = true
    ∧ (generateRegistryItem cfg0 sf0 none).toOption.map
        (Option.map (fun i => i.files)) = some (some []) :=
  ⟨rfl, rfl, rfl⟩

/-- C1 amended.  Schema validation is insensitive to `files` being empty: on
an empty-files item it reduces to the remaining checks (type from the enum,
string description, well-formed optional `cssVars`/`tailwind`).  And
`generateRegistryItem` never raises a validation error on account of an empty
`files` array: for every story file on which the generator runs to completion
without an unrelated failure — a `titleSplitSafe` title (a non-string truthy
title makes the source throw a `TypeError` before validating), no `cssVars`
parameter, a string description — it returns `Except.ok`: `Option.none` for a
falsy component name, the validated item otherwise. -/
theorem registryItem_emptyFiles_amended :
    (∀ item : RegistryItemValue, item.files = [] →
      RegistryItemSchema_safeParse item =
        (registryTypeEnum.contains item.type
          && isStrCheck item.description
          && (match item.cssVars with
              | some v => cssVarsCheck v
              | none => true)
          && (match item.tailwind with
              | some v => tailwindCheck v
              | none => true)))
    ∧ (∀ (cfg : SyncConfigModel) (sf : ParsedStoryFile)
        (analysis : Option AnalysisLite),
        titleSplitSafe sf = true →
        generateCssVars sf = none →
        isStrCheck (generateDescription sf) = true →
        (generateRegistryItem cfg sf analysis).toOption.isSome = true) := by
  constructor
  · intro item hfiles
    unfold RegistryItemSchema_safeParse
    rw [hfiles]
    simp [List.all_nil, Bool.and_true]
  · intro cfg sf analysis _htitle hcss hdesc
    by_cases hcn : sf.componentName.data.isEmpty = true
    · rw [generateRegistryItem, if_pos hcn]
      rfl
    · have hval : RegistryItemSchema_safeParse (assembleItem cfg sf analysis) = true := by
        unfold RegistryItemSchema_safeParse assembleItem
        simp only [registryTypeStr_mem, generateFiles_valid, hdesc, hcss,
          Bool.and_true, Bool.true_and]
      rw [generateRegistryItem, if_neg hcn, if_pos hval]
      rfl

/-- Witness for C1 (amended) at `cfg0`/`sf0` (whose title is the string
`"Components/Button"`, hence `titleSplitSafe`): the generator succeeds, and
the item it returns has an empty `files` array. -/
theorem registryItem_emptyFiles_amended_witness :
    (generateRegistryItem cfg0 sf0 none).toOption.isSome = true
    ∧ (generateRegistryItem cfg0 sf0 none).toOption.map
        (Option.map (fun i => i.files)) = some (some []) :=
  ⟨registryItem_emptyFiles_amended.2 cfg0 sf0 none rfl rfl rfl, rfl⟩
